import Mathlib

/-!
Shallow embedding of the Humine chess-learner core (src/humine.py) and
verification of the frozen claims about it.

The rules engine (python-chess) and the opponent oracle (Stockfish) are
external collaborators: their answers appear here as abstract inputs
(records of functions, per-move classification data, choice streams).
Everything with algorithmic content in `humine.py` — the statistics model,
the scoring function, retry eligibility, attack/defense sequence ranking,
the outcome simulator's control flow, and the move-search loop — is
translated directly from the source.

Python floats are modelled by `ℚ` (all arithmetic in the scored paths is
`+ - * /` on values, so rationals track the source exactly up to float
rounding), Python's `float('inf')` sentinels by `Option Nat` (`none` =
infinity, as no win/draw has been recorded yet), and Python dicts by
insertion-ordered association lists (Python 3.7+ dicts iterate in
insertion order, which the source relies on for `random`-free tie
breaking).
-/

namespace Humine

/-- Piece kinds of the rules engine (`chess.PAWN` … `chess.KING`). -/
inductive PieceType
  | pawn
  | knight
  | bishop
  | rook
  | queen
  | king
deriving DecidableEq, Repr

/-- `ChessLearner.PIECE_VALUES` (humine.py lines 29-36). -/
def PIECE_VALUES : PieceType → Int
  | .pawn => 100
  | .knight => 320
  | .bishop => 330
  | .rook => 500
  | .queen => 900
  | .king => 0

/-- `get_captured_piece_value` (lines 160-170): 0 for a non-capture,
the pawn value for an en-passant capture (no piece on the target
square), else the captured piece's value. -/
def get_captured_piece_value (isCapture : Bool) (capturedPiece : Option PieceType) : Int :=
  if !isCapture then 0
  else
    match capturedPiece with
    | none => PIECE_VALUES PieceType.pawn
    | some pt => PIECE_VALUES pt

/-- The `tactical_info` dict built by `simulate_tactical_game`
(lines 394-400): captures are recorded as (san, value) pairs. -/
structure TacticalInfo where
  captures_by_us : List (String × Int)
  captures_by_opponent : List (String × Int)
  material_balance_change : Int
  checks_given : Nat
  checks_received : Nat
deriving DecidableEq, Repr

/-- The all-zero `tactical_info` the simulator starts from. -/
def emptyTacticalInfo : TacticalInfo :=
  { captures_by_us := []
    captures_by_opponent := []
    material_balance_change := 0
    checks_given := 0
    checks_received := 0 }

/-- One `result_entry` appended by `record_move_result` (lines 509-516). -/
structure ResultEntry where
  result : String
  move_count : Nat
  timestamp : String
  tactical_info : Option TacticalInfo
deriving DecidableEq, Repr

/-- One per-move record of the statistics store (lines 494-504).
`min_moves_to_win`/`min_moves_to_draw` are `none` for the source's
`float('inf')` sentinel. -/
structure MoveData where
  san : String
  results : List ResultEntry
  wins : Nat
  draws : Nat
  losses : Nat
  min_moves_to_win : Option Nat
  min_moves_to_draw : Option Nat
  total_captures : Nat
  total_material_gained : Int
deriving DecidableEq, Repr

/-- The fresh record created on a move's first recording (lines 494-504). -/
def freshMoveData (san : String) : MoveData :=
  { san := san
    results := []
    wins := 0
    draws := 0
    losses := 0
    min_moves_to_win := none
    min_moves_to_draw := none
    total_captures := 0
    total_material_gained := 0 }

/-- `min(old, move_count)` with the `float('inf')` sentinel as `none`. -/
def minUpdate : Option Nat → Nat → Option Nat
  | none, mc => some mc
  | some m, mc => some (min m mc)

/-- The body of `record_move_result` acting on one record
(lines 506-530): add the tactical totals, append the result entry, then
bump exactly one of the three counters. -/
def updateMoveData (d : MoveData) (result : String) (move_count : Nat)
    (tinfo : Option TacticalInfo) (timestamp : String) : MoveData :=
  let d1 :=
    match tinfo with
    | some t =>
        { d with
          total_captures := d.total_captures + t.captures_by_us.length
          total_material_gained := d.total_material_gained + t.material_balance_change }
    | none => d
  let entry : ResultEntry :=
    { result := result, move_count := move_count, timestamp := timestamp
      tactical_info := tinfo }
  let d2 := { d1 with results := d1.results ++ [entry] }
  if result = "WIN" then
    { d2 with wins := d2.wins + 1
              min_moves_to_win := minUpdate d2.min_moves_to_win move_count }
  else if result = "DRAW" then
    { d2 with draws := d2.draws + 1
              min_moves_to_draw := minUpdate d2.min_moves_to_draw move_count }
  else
    { d2 with losses := d2.losses + 1 }

/-- Python-dict lookup on an insertion-ordered association list. -/
def alist_get {β : Type} : List (String × β) → String → Option β
  | [], _ => none
  | p :: ps, k => if p.1 == k then some p.2 else alist_get ps k

/-- Python-dict assignment `l[k] = v`: overwrite in place when the key
exists, else append at the end (dicts keep insertion order). -/
def alist_set {β : Type} : List (String × β) → String → β → List (String × β)
  | [], k, v => [(k, v)]
  | p :: ps, k, v => if p.1 == k then (k, v) :: ps else p :: alist_set ps k v

/-- A position's bucket: move-uci → record, in insertion order. -/
abbrev Bucket := List (String × MoveData)

/-- The whole statistics store: position key → bucket. -/
abbrev Memory := List (String × Bucket)

/-- `record_move_result` (lines 486-532) acting on the store: create the
key's bucket if absent, create the move's record if absent, update it,
store it back.  (The terminal `_save_memory()` is persistence, outside
the in-memory model.) -/
def record_move_result (mem : Memory) (key uci san result : String)
    (move_count : Nat) (tinfo : Option TacticalInfo) (timestamp : String) :
    Memory :=
  let mem1 := if (alist_get mem key).isSome then mem else alist_set mem key []
  let bucket := (alist_get mem1 key).getD []
  let bucket1 :=
    if (alist_get bucket uci).isSome then bucket
    else alist_set bucket uci (freshMoveData san)
  let old := (alist_get bucket1 uci).getD (freshMoveData san)
  alist_set mem1 key (alist_set bucket1 uci (updateMoveData old result move_count tinfo timestamp))

/-- `self.memory[position_key][move_uci]` as a partial lookup. -/
def lookupMove (mem : Memory) (key uci : String) : Option MoveData :=
  match alist_get mem key with
  | none => none
  | some b => alist_get b uci

/-- One call to `record_move_result`, with the externally supplied
timestamp made explicit. -/
structure RecordOp where
  key : String
  uci : String
  san : String
  result : String
  move_count : Nat
  tinfo : Option TacticalInfo
  timestamp : String

/-- A sequence of outcome recordings applied to a store. -/
def applyOps (mem : Memory) (ops : List RecordOp) : Memory :=
  ops.foldl
    (fun m o => record_move_result m o.key o.uci o.san o.result o.move_count o.tinfo o.timestamp)
    mem

/-- `1000 / min_moves` when a win/draw has been recorded
(`min < float('inf')`), else 0 (lines 549 and 554). -/
def speedBonus : Option Nat → ℚ
  | none => 0
  | some m => 1000 / (m : ℚ)

/-- The capture/material tail of `get_move_score` (lines 562-563). -/
def tacticalBonus (d : MoveData) : ℚ :=
  (d.total_captures : ℚ) * 10 + (d.total_material_gained : ℚ) / 10

/-- `get_move_score` (lines 534-565): 0 on an empty record; else a
win/draw/loss tier base plus the tactical bonuses. -/
def get_move_score (d : MoveData) : ℚ :=
  let total : ℚ := (d.wins : ℚ) + (d.draws : ℚ) + (d.losses : ℚ)
  if d.wins + d.draws + d.losses = 0 then 0
  else
    let base : ℚ :=
      if 0 < d.wins then
        10000 + speedBonus d.min_moves_to_win + (d.wins : ℚ) / total * 500
      else if 0 < d.draws then
        5000 + speedBonus d.min_moves_to_draw + (d.draws : ℚ) / total * 500
      else
        100 / (1 + (d.losses : ℚ) / total * 10)
    base + tacticalBonus d

/-- `should_retry_move` (lines 598-611). -/
def should_retry_move (d : MoveData) : Bool :=
  if 0 < d.wins ∨ 0 < d.draws then true
  else if d.wins + d.draws + d.losses < 3 then true
  else false

/-- The loop body of `get_best_move_from_memory` (lines 574-581) as a
fold step: strict improvement over the running best score (seeded -1). -/
def bestStep (acc : Option (String × String × MoveData) × ℚ)
    (p : String × MoveData) : Option (String × String × MoveData) × ℚ :=
  let score := get_move_score p.2
  if acc.2 < score then (some (p.1, p.2.san, p.2), score) else acc

/-- `get_best_move_from_memory` (lines 567-583). -/
def get_best_move_from_memory (mem : Memory) (key : String) :
    Option (String × String × MoveData) :=
  match alist_get mem key with
  | none => none
  | some bucket =>
      match bucket with
      | [] => none
      | _ => (bucket.foldl bestStep ((none : Option (String × String × MoveData)), (-1 : ℚ))).1

/-- Insert `x` into a descending-by-priority list, before the first
element of no greater priority.  Together with `sortDesc` this models
Python's `list.sort(key=..., reverse=True)`, which is guaranteed stable:
equal-priority elements keep their original relative order. -/
def insertDesc {α β : Type} [LinearOrder β] (pri : α → β) (x : α) :
    List α → List α
  | [] => [x]
  | y :: ys => if pri x < pri y then y :: insertDesc pri x ys else x :: y :: ys

/-- Stable descending sort by a priority key (Python's
`sort(key=..., reverse=True)` semantics). -/
def sortDesc {α β : Type} [LinearOrder β] (pri : α → β) : List α → List α
  | [] => []
  | x :: xs => insertDesc pri x (sortDesc pri xs)

/-- What the rules engine reports about one legal move for
`calculate_attack_sequences` (lines 219-244): whether the position after
the move is checkmate or check, whether the move is a capture on the
pre-move board, and which piece stands on the target square (`none` for
the en-passant case). -/
structure MoveClass (μ : Type) where
  move : μ
  resultIsCheckmate : Bool
  resultIsCheck : Bool
  isCapture : Bool
  capturedPiece : Option PieceType
deriving DecidableEq, Repr

/-- One attack-sequence dict (lines 225-251): the move list, the
`result` tag string, the depth and the material gain. -/
structure AttackSeq (μ : Type) where
  moves : List μ
  result : String
  depth : Nat
  material_gain : Int
deriving DecidableEq, Repr

/-- Default used only to state positional properties via `List.getD`. -/
def dummySeq {μ : Type} : AttackSeq μ :=
  { moves := [], result := "", depth := 1, material_gain := 0 }

/-- The entries one legal move contributes in the body of
`calculate_attack_sequences` (lines 219-251): a checkmate entry
short-circuits (`continue`); otherwise a check entry is appended when
the move gives check, and — additionally, the source has no `continue`
after the check branch — a capture entry when the move is a capture with
positive gain. -/
def attackEntriesFor {μ : Type} (m : MoveClass μ) : List (AttackSeq μ) :=
  let gain := get_captured_piece_value m.isCapture m.capturedPiece
  if m.resultIsCheckmate then
    [{ moves := [m.move], result := "checkmate", depth := 1, material_gain := gain }]
  else
    (if m.resultIsCheck then
      [{ moves := [m.move], result := "check", depth := 1, material_gain := gain }]
     else [])
    ++ (if m.isCapture ∧ 0 < gain then
      [{ moves := [m.move], result := "capture", depth := 1, material_gain := gain }]
     else [])

/-- The unsorted entry list over all legal moves, in move-generation
order (the `for move in board.legal_moves` loop of lines 219-251). -/
def attackEntries {μ : Type} : List (MoveClass μ) → List (AttackSeq μ)
  | [] => []
  | m :: ms => attackEntriesFor m ++ attackEntries ms

/-- `sequence_priority` (lines 254-260). -/
def sequence_priority {μ : Type} (seq : AttackSeq μ) : Int :=
  if seq.result = "checkmate" then 10000
  else if seq.result = "check" then 5000 + seq.material_gain
  else seq.material_gain

/-- `calculate_attack_sequences` (lines 205-263): build the entries,
then `sequences.sort(key=sequence_priority, reverse=True)`. -/
def calculate_attack_sequences {μ : Type} (ms : List (MoveClass μ)) :
    List (AttackSeq μ) :=
  sortDesc sequence_priority (attackEntries ms)

/-- What the rules engine reports about one legal move for
`calculate_defense_sequences` (lines 274-299).  `testIsCheck` is
`test_board.is_check()` evaluated after the move was pushed, so it asks
whether the side then to move — the opponent — is in check, i.e. whether
the learner's move gave check.  `testIsCaptureMove` is
`test_board.is_capture(move)`, likewise evaluated on the post-move
board.  `attackedByOpponent`/`defendedByUs` are the two
`test_board.is_attacked_by(...)` probes of the destination square. -/
structure DefMoveClass (μ : Type) where
  move : μ
  pieceMoved : Option PieceType
  testIsCheck : Bool
  threatsAfterCount : Nat
  testIsCaptureMove : Bool
  capturedValue : Int
  testGameOver : Bool
  attackedByOpponent : Bool
  defendedByUs : Bool
deriving DecidableEq, Repr

/-- One defense-sequence dict (lines 301-307). -/
structure DefenseSeq (μ : Type) where
  move : μ
  removes_check : Bool
  threats_reduced : Int
  material_cost : Int
  king_safer : Bool
deriving DecidableEq, Repr

/-- The per-move body of `calculate_defense_sequences` (lines 274-307).
`boardIsCheck` is `board.is_check()` on the pre-move board (the learner
to move), `threatsBefore` the pre-move threat count — both are
per-position, shared by every move. -/
def defenseEntryFor {μ : Type} (boardIsCheck : Bool) (threatsBefore : Nat)
    (m : DefMoveClass μ) : DefenseSeq μ :=
  let piece_value : Int :=
    match m.pieceMoved with
    | some pt => PIECE_VALUES pt
    | none => 0
  let removes_check := if boardIsCheck then !m.testIsCheck else false
  let material_lost : Int := if m.testIsCaptureMove then -m.capturedValue else 0
  let material_lost :=
    if !m.testGameOver && m.pieceMoved.isSome && m.attackedByOpponent && !m.defendedByUs then
      material_lost + piece_value
    else material_lost
  { move := m.move
    removes_check := removes_check
    threats_reduced := (threatsBefore : Int) - (m.threatsAfterCount : Int)
    material_cost := material_lost
    king_safer := decide (m.threatsAfterCount < threatsBefore) }

/-- `defense_priority` (lines 310-316). -/
def defense_priority {μ : Type} (d : DefenseSeq μ) : Int :=
  (if d.removes_check then 10000 else 0) + d.threats_reduced * 1000 - d.material_cost

/-- `calculate_defense_sequences` (lines 265-319). -/
def calculate_defense_sequences {μ : Type} (boardIsCheck : Bool)
    (threatsBefore : Nat) (ms : List (DefMoveClass μ)) : List (DefenseSeq μ) :=
  sortDesc defense_priority (ms.map (defenseEntryFor boardIsCheck threatsBefore))

/-- The terminal classification of `simulate_tactical_game`
(lines 474-484), as a function of the rules-engine flags of the final
position: `winner_is_white = not sim_board.turn` (the side that just
moved), WIN/LOSS by comparing it with `play_as_white`; every non-mate
ending — stalemate, insufficient material, fifty moves, repetition, or
simply reaching the depth cap — is a DRAW. -/
def determineResult (isCheckmate isStalemate isInsufficientMaterial
    isFiftyMoves isRepetition turnIsWhite playAsWhite : Bool) : String :=
  if isCheckmate then
    let winner_is_white := !turnIsWhite
    if winner_is_white == playAsWhite then "WIN" else "LOSS"
  else if isStalemate || isInsufficientMaterial || isFiftyMoves || isRepetition then
    "DRAW"
  else
    "DRAW"

/-- The rules-engine collaborator (python-chess), abstracted: board
states `σ`, moves `μ`, and the predicates/operations the simulator
calls.  `materialBalance b pw` is `get_material_balance` (lines 143-154)
from the learner's perspective given `play_as_white = pw`. -/
structure Rules (σ μ : Type) where
  isGameOver : σ → Bool
  legalMoves : σ → List μ
  isCapture : σ → μ → Bool
  push : σ → μ → σ
  isCheck : σ → Bool
  turnIsWhite : σ → Bool
  isCheckmate : σ → Bool
  isStalemate : σ → Bool
  isInsufficientMaterial : σ → Bool
  isFiftyMoves : σ → Bool
  isRepetition : σ → Bool
  san : σ → μ → String
  capturedValue : σ → μ → Int
  materialBalance : σ → Bool → Int

/-- `random.choice(l)` driven by an externally supplied index stream;
every caller guards `l` nonempty, so the default is never used. -/
def pick {μ : Type} [Inhabited μ] (l : List μ) (i : Nat) : μ :=
  l.getD (i % l.length) default

/-- One iteration of the simulation loop body (lines 405-465), without
the trailing `move_count += 1`: `none` means the body hit a `break` (no
legal move), `some (b, t)` the successor board and trace.
`preferCapture mc` is the outcome of `random.random() < 0.3` at that
iteration, `choice mc` drives `random.choice`, and `engine` is the
opponent oracle — `none` for testing mode, `some eng` with `eng b = none`
when `engine.play` raises (the `except` fallback plays a random move and
records nothing). -/
def simStep {σ μ : Type} [Inhabited μ] (R : Rules σ μ) (playAsWhite : Bool)
    (preferCapture : Nat → Bool) (choice : Nat → Nat)
    (engine : Option (σ → Option μ)) (b : σ) (mc : Nat) (t : TacticalInfo) :
    Option (σ × TacticalInfo) :=
  if (R.turnIsWhite b) == playAsWhite then
    let legal := R.legalMoves b
    if legal.isEmpty then none
    else
      let captures := legal.filter (fun m => R.isCapture b m)
      if !captures.isEmpty && preferCapture mc then
        let m := pick captures (choice mc)
        let value := R.capturedValue b m
        let t1 := { t with captures_by_us := t.captures_by_us ++ [(R.san b m, value)] }
        let b1 := R.push b m
        let t2 := if R.isCheck b1 then { t1 with checks_given := t1.checks_given + 1 } else t1
        some (b1, t2)
      else
        let m := pick legal (choice mc)
        let t1 :=
          if R.isCapture b m then
            { t with captures_by_us := t.captures_by_us ++ [(R.san b m, R.capturedValue b m)] }
          else t
        let b1 := R.push b m
        let t2 := if R.isCheck b1 then { t1 with checks_given := t1.checks_given + 1 } else t1
        some (b1, t2)
  else
    match engine with
    | some eng =>
        match eng b with
        | some m =>
            let t1 :=
              if R.isCapture b m then
                { t with captures_by_opponent :=
                    t.captures_by_opponent ++ [(R.san b m, R.capturedValue b m)] }
              else t
            let b1 := R.push b m
            let t2 :=
              if R.isCheck b1 then { t1 with checks_received := t1.checks_received + 1 } else t1
            some (b1, t2)
        | none =>
            let legal := R.legalMoves b
            if legal.isEmpty then none
            else some (R.push b (pick legal (choice mc)), t)
    | none =>
        let legal := R.legalMoves b
        if legal.isEmpty then none
        else some (R.push b (pick legal (choice mc)), t)

/-- The `while not sim_board.is_game_over() and move_count < self.max_depth`
loop of `simulate_tactical_game` (lines 405-467): run the body, bump the
ply count, repeat; a `break` or a failed guard returns the state as is. -/
def simLoop {σ μ : Type} [Inhabited μ] (R : Rules σ μ) (playAsWhite : Bool)
    (maxDepth : Nat) (preferCapture : Nat → Bool) (choice : Nat → Nat)
    (engine : Option (σ → Option μ)) (b : σ) (mc : Nat) (t : TacticalInfo) :
    σ × Nat × TacticalInfo :=
  if _h : R.isGameOver b = false ∧ mc < maxDepth then
    match simStep R playAsWhite preferCapture choice engine b mc t with
    | none => (b, mc, t)
    | some (b1, t1) => simLoop R playAsWhite maxDepth preferCapture choice engine b1 (mc + 1) t1
  else (b, mc, t)
termination_by maxDepth - mc
decreasing_by omega

/-- `simulate_tactical_game` (lines 382-484): push the first move, run
the loop from ply count 1, set the material swing, classify the end. -/
def simulate_tactical_game {σ μ : Type} [Inhabited μ] (R : Rules σ μ)
    (playAsWhite : Bool) (maxDepth : Nat) (board : σ) (firstMove : μ)
    (preferCapture : Nat → Bool) (choice : Nat → Nat)
    (engine : Option (σ → Option μ)) : String × Nat × TacticalInfo :=
  let sim0 := R.push board firstMove
  let initial_balance := R.materialBalance sim0 playAsWhite
  let r := simLoop R playAsWhite maxDepth preferCapture choice engine sim0 1 emptyTacticalInfo
  let bf := r.1
  let final_balance := R.materialBalance bf playAsWhite
  let tinfo := { r.2.2 with material_balance_change := final_balance - initial_balance }
  (determineResult (R.isCheckmate bf) (R.isStalemate bf) (R.isInsufficientMaterial bf)
     (R.isFiftyMoves bf) (R.isRepetition bf) (R.turnIsWhite bf) playAsWhite,
   r.2.1, tinfo)

/-- A degenerate rules engine whose every game is immediately over; used
to evaluate the simulator model on a concrete input. -/
def trivialRules : Rules Unit Unit :=
  { isGameOver := fun _ => true
    legalMoves := fun _ => []
    isCapture := fun _ _ => false
    push := fun _ _ => ()
    isCheck := fun _ => false
    turnIsWhite := fun _ => true
    isCheckmate := fun _ => false
    isStalemate := fun _ => true
    isInsufficientMaterial := fun _ => false
    isFiftyMoves := fun _ => false
    isRepetition := fun _ => false
    san := fun _ _ => "m"
    capturedValue := fun _ _ => 0
    materialBalance := fun _ _ => 0 }

/-- The strategy tags `analyze_position_before_move` can recommend
(lines 349, 352, 355, 363, 366, 369, 372, 374). -/
inductive Strategy
  | attack
  | defend
  | counter_attack
  | checkmate
  | capture
  | positional
deriving DecidableEq, Repr

/-- `get_untried_moves` (lines 585-596), with moves as uci strings:
legal moves whose uci is not a key of the position's bucket. -/
def get_untried_moves (mem : Memory) (key : String) (legal : List String) :
    List String :=
  let tried := ((alist_get mem key).getD []).map Prod.fst
  legal.filter (fun m => !(tried.contains m))

/-- The external inputs of one `find_winning_move` run: the legal moves
of the fixed position, san rendering, the `random.choice` index stream,
the simulation outcome of each attempt (abstracting
`simulate_tactical_game` and its randomness), and the timestamps. -/
structure SearchEnv where
  legalMoves : List String
  san : String → String
  pickUntried : Nat → Nat
  simResult : Nat → String × Nat × TacticalInfo
  timestamps : Nat → String

/-- The 3-valued state of the Python local `best_draw`: `none` means the
variable was never assigned (reading it raises `UnboundLocalError`),
`some none` the assigned value `None`, `some (some (san, uci))` an
assigned candidate — the source stores `(move_san, move_data)` where
`move_data` aliases `self.memory[position_key][move_uci]`, so the model
keeps the uci and reads the current record through the store. -/
abbrev BestDraw := Option (Option (String × String))

/-- Lines 948-963: after the loop, return the best draw if any was
found, else report failure; reading an unassigned `best_draw` raises. -/
def finishSearch (bestDraw : BestDraw) : Except String (Option String) :=
  match bestDraw with
  | none => Except.error "UnboundLocalError: best_draw"
  | some (some p) => Except.ok (some p.1)
  | some none => Except.ok none

/-- The `while attempts < max_strength` loop of `find_winning_move`
(lines 856-946).  Per attempt: pick the first untried priority move,
else a random untried move, else the best-scoring retry-eligible
recorded move (terminating the search early when none exists); simulate
(`env.simResult`), record, return on WIN, update the best-draw candidate
on DRAW.  `Except.error` models an uncaught Python exception. -/
def searchLoop (env : SearchEnv) (key : String) (max_strength : Nat)
    (priorityMoves : List String) (bestDraw : BestDraw) (mem : Memory)
    (attempts : Nat) : Except String (Option String) :=
  if _h : attempts < max_strength then
    let untried := get_untried_moves mem key env.legalMoves
    let chosen : Option (String × List String) :=
      if priorityMoves ≠ [] ∧ untried ≠ [] then
        match priorityMoves.filter (fun m => untried.contains m) with
        | m :: _ => some (m, priorityMoves.erase m)
        | [] => some (pick untried (env.pickUntried attempts), priorityMoves)
      else if untried ≠ [] then
        some (pick untried (env.pickUntried attempts), priorityMoves)
      else if (alist_get mem key).isSome then
        let retry_candidates :=
          ((alist_get mem key).getD []).filter (fun p => should_retry_move p.2)
        match sortDesc (fun p => get_move_score p.2) retry_candidates with
        | c :: _ => some (c.1, priorityMoves)
        | [] => none
      else none
    match chosen with
    | none => finishSearch bestDraw
    | some (moveUci, priority1) =>
        let moveSan := env.san moveUci
        let sim := env.simResult attempts
        let result := sim.1
        let move_count := sim.2.1
        let tinfo := sim.2.2
        let mem1 := record_move_result mem key moveUci moveSan result move_count
          (some tinfo) (env.timestamps attempts)
        if result = "WIN" then Except.ok (some moveSan)
        else if result = "DRAW" then
          match bestDraw with
          | none => Except.error "UnboundLocalError: best_draw"
          | some none =>
              searchLoop env key max_strength priority1
                (some (some (moveSan, moveUci))) mem1 (attempts + 1)
          | some (some bd) =>
              let current_material :=
                ((lookupMove mem1 key moveUci).getD (freshMoveData "")).total_material_gained
              let best_material :=
                ((lookupMove mem1 key bd.2).getD (freshMoveData "")).total_material_gained
              if best_material < current_material then
                searchLoop env key max_strength priority1
                  (some (some (moveSan, moveUci))) mem1 (attempts + 1)
              else
                searchLoop env key max_strength priority1 bestDraw mem1 (attempts + 1)
        else
          searchLoop env key max_strength priority1 bestDraw mem1 (attempts + 1)
  else finishSearch bestDraw
termination_by max_strength - attempts
decreasing_by all_goals omega

/-- `find_winning_move` (lines 787-963).  Steps 1-2 (lines 798-828):
the analyzer's verdicts arrive as inputs (`strategy`, the ranked
defense/attack moves); consult memory and return a remembered winning
move, or seed `best_draw` — which stays *unassigned*, not `None`, on
the paths where the source's `if best_from_memory:` branch falls through
without the `best_draw = ...` / `best_draw = None` assignments (a
best-memory move with no wins under defend/counter-attack, or with no
wins and no draws otherwise).  Then the priority list (lines 836-854)
and the attempt loop. -/
def find_winning_move (strategy : Strategy) (defenseMoves attackMoves : List String)
    (env : SearchEnv) (mem : Memory) (key : String) (max_strength : Nat) :
    Except String (Option String) :=
  let priorityMoves :=
    if strategy = Strategy.defend then defenseMoves.take 5
    else if strategy = Strategy.attack ∨ strategy = Strategy.checkmate ∨
        strategy = Strategy.capture then attackMoves.take 5
    else []
  match get_best_move_from_memory mem key with
  | some best =>
      let uci := best.1
      let msan := best.2.1
      let data := best.2.2
      if strategy = Strategy.defend ∨ strategy = Strategy.counter_attack then
        if 0 < data.wins then Except.ok (some msan)
        else searchLoop env key max_strength priorityMoves none mem 0
      else if 0 < data.wins then Except.ok (some msan)
      else if 0 < data.draws then
        searchLoop env key max_strength priorityMoves (some (some (msan, uci))) mem 0
      else searchLoop env key max_strength priorityMoves none mem 0
  | none => searchLoop env key max_strength priorityMoves (some none) mem 0

/-! ### Association-list lemmas -/

theorem alist_get_set_same {β : Type} (l : List (String × β)) (k : String) (v : β) :
    alist_get (alist_set l k v) k = some v := by
  induction l with
  | nil => simp [alist_get, alist_set]
  | cons p ps ih =>
      by_cases h : p.1 = k
      · simp [alist_get, alist_set, h]
      · simp only [alist_set, alist_get]
        rw [if_neg (by simpa using h), alist_get, if_neg (by simpa using h)]
        exact ih

theorem alist_get_set_ne {β : Type} (l : List (String × β)) (k k' : String) (v : β)
    (h : k' ≠ k) : alist_get (alist_set l k v) k' = alist_get l k' := by
  induction l with
  | nil =>
      simp only [alist_set, alist_get]
      rw [if_neg (by simpa using fun hk => h hk.symm)]
  | cons p ps ih =>
      by_cases hp : p.1 = k
      · simp only [alist_set]
        rw [if_pos (by simpa using hp)]
        simp only [alist_get]
        rw [if_neg (by simpa using fun hk => h hk.symm),
          if_neg (by simpa [hp] using fun hk => h hk.symm)]
      · simp only [alist_set]
        rw [if_neg (by simpa using hp)]
        simp only [alist_get]
        by_cases hk : p.1 = k'
        · rw [if_pos (by simpa using hk), if_pos (by simpa using hk)]
        · rw [if_neg (by simpa using hk), if_neg (by simpa using hk)]
          exact ih

/-! ### Claim theorems -/

/-- The counter/results-length invariant of a single move record. -/
def RecordInvariant (d : MoveData) : Prop :=
  d.wins + d.draws + d.losses = d.results.length

/-- One recording step keeps a record's counters in step with its
results list: it appends exactly one entry and bumps exactly one of the
three counters. -/
theorem updateMoveData_invariant (d : MoveData) (result : String) (mc : Nat)
    (tinfo : Option TacticalInfo) (ts : String) (h : RecordInvariant d) :
    RecordInvariant (updateMoveData d result mc tinfo ts) := by
  unfold RecordInvariant at h ⊢
  unfold updateMoveData
  cases tinfo <;> split_ifs <;> simp [List.length_append] <;> omega

/-- The fresh record satisfies the invariant trivially. -/
theorem freshMoveData_invariant (san : String) :
    RecordInvariant (freshMoveData san) := by
  simp [RecordInvariant, freshMoveData]

/-- Every record reachable in a store satisfies the invariant. -/
def MemInvariant (mem : Memory) : Prop :=
  ∀ k u d, lookupMove mem k u = some d → RecordInvariant d

/-- What `record_move_result` does to every lookup: the targeted
(key, uci) slot now holds the updated record (updating the previous
record, or a fresh one if the slot was empty); every other slot is
untouched. -/
theorem record_lookup (mem : Memory) (key uci san result : String) (mc : Nat)
    (tinfo : Option TacticalInfo) (ts : String) (k u : String) :
    lookupMove (record_move_result mem key uci san result mc tinfo ts) k u =
      if k = key ∧ u = uci then
        some (updateMoveData ((lookupMove mem key uci).getD (freshMoveData san))
          result mc tinfo ts)
      else lookupMove mem k u := by
  by_cases hk : k = key
  · subst hk
    by_cases hu : u = uci
    · subst hu
      rw [if_pos ⟨rfl, rfl⟩]
      simp only [record_move_result, lookupMove]
      cases hmem : alist_get mem k with
      | some b =>
          simp only [hmem, Option.isSome_some, if_true, Option.getD_some,
            alist_get_set_same]
          cases hbu : alist_get b u with
          | some o =>
              simp [hbu, alist_get_set_same]
          | none =>
              simp [hbu, alist_get_set_same]
      | none =>
          simp only [hmem, Option.isSome_none, Bool.false_eq_true, if_false,
            alist_get_set_same, Option.getD_some, Option.getD_none]
          have hempty : alist_get ([] : Bucket) u = none := rfl
          simp [hempty, alist_get_set_same]
    · rw [if_neg (by simp [hu])]
      simp only [record_move_result, lookupMove]
      cases hmem : alist_get mem k with
      | some b =>
          simp only [hmem, Option.isSome_some, if_true, Option.getD_some,
            alist_get_set_same]
          rw [alist_get_set_ne _ _ _ _ hu]
          cases hbu : alist_get b uci with
          | some o => simp [hbu]
          | none =>
              simp only [hbu, Option.isSome_none, Bool.false_eq_true, if_false]
              rw [alist_get_set_ne _ _ _ _ hu]
      | none =>
          simp only [hmem, Option.isSome_none, Bool.false_eq_true, if_false,
            alist_get_set_same, Option.getD_some]
          have hempty : alist_get ([] : Bucket) uci = none := rfl
          simp only [hempty, Option.isSome_none, Bool.false_eq_true, if_false,
            alist_get_set_same, Option.getD_some]
          simp [alist_get_set_ne _ _ _ _ hu, alist_get]
          exact fun hc => hu hc.symm
  · rw [if_neg (by simp [hk])]
    simp only [record_move_result, lookupMove]
    rw [alist_get_set_ne _ _ _ _ hk]
    by_cases hmem : (alist_get mem key).isSome
    · simp only [hmem, if_true]
    · simp only [hmem, Bool.false_eq_true, if_false]
      rw [alist_get_set_ne _ _ _ _ hk]

/-- `record_move_result` preserves the store-wide invariant. -/
theorem record_move_result_invariant (mem : Memory) (key uci san result : String)
    (mc : Nat) (tinfo : Option TacticalInfo) (ts : String) (h : MemInvariant mem) :
    MemInvariant (record_move_result mem key uci san result mc tinfo ts) := by
  intro k u d hd
  rw [record_lookup] at hd
  split_ifs at hd with hcond
  · have hd2 : updateMoveData ((lookupMove mem key uci).getD (freshMoveData san))
        result mc tinfo ts = d := by
      exact Option.some_inj.mp hd
    rw [← hd2]
    apply updateMoveData_invariant
    cases hlook : lookupMove mem key uci with
    | none => simpa [hlook] using freshMoveData_invariant san
    | some o => simpa [hlook] using h key uci o hlook
  · exact h k u d hd

/-- C7: every move record reachable by any sequence of outcome
recordings (starting from the empty store) satisfies
wins + draws + losses = length of its results list. -/
theorem counters_match_results (ops : List RecordOp) (k u : String) (d : MoveData)
    (h : lookupMove (applyOps [] ops) k u = some d) :
    d.wins + d.draws + d.losses = d.results.length := by
  suffices hinv : ∀ mem, MemInvariant mem → MemInvariant (applyOps mem ops) by
    exact hinv [] (fun a b c hc => absurd hc (by simp [lookupMove, alist_get])) k u d h
  clear h
  induction ops with
  | nil => intro mem hm; exact hm
  | cons o os ih =>
      intro mem hm
      show MemInvariant (applyOps (record_move_result mem o.key o.uci o.san o.result
        o.move_count o.tinfo o.timestamp) os)
      exact ih _ (record_move_result_invariant mem o.key o.uci o.san o.result
        o.move_count o.tinfo o.timestamp hm)

/-- The single recording used to evaluate C7 concretely. -/
def singleWinOp : RecordOp :=
  { key := "K", uci := "e2e4", san := "e4", result := "WIN", move_count := 5
    tinfo := none, timestamp := "t" }

/-- The record that recording `singleWinOp` into an empty store produces. -/
def singleWinRecord : MoveData :=
  { san := "e4"
    results := [{ result := "WIN", move_count := 5, timestamp := "t", tactical_info := none }]
    wins := 1
    draws := 0
    losses := 0
    min_moves_to_win := some 5
    min_moves_to_draw := none
    total_captures := 0
    total_material_gained := 0 }

/-- Witness for C7: one recorded win yields a record with
wins + draws + losses = 1 = number of results. -/
theorem counters_match_results_witness :
    lookupMove (applyOps [] [singleWinOp]) "K" "e2e4" = some singleWinRecord ∧
    singleWinRecord.wins + singleWinRecord.draws + singleWinRecord.losses =
      singleWinRecord.results.length :=
  ⟨by decide, counters_match_results [singleWinOp] "K" "e2e4" singleWinRecord (by decide)⟩

/-- C9: `should_retry_move` returns true if wins > 0 or draws > 0
(regardless of attempts), true if fewer than 3 total attempts, and false
exactly when attempts ≥ 3 with wins = 0 and draws = 0. -/
theorem should_retry_spec (d : MoveData) :
    ((0 < d.wins ∨ 0 < d.draws) → should_retry_move d = true) ∧
    (d.wins + d.draws + d.losses < 3 → should_retry_move d = true) ∧
    (should_retry_move d = false ↔
      3 ≤ d.wins + d.draws + d.losses ∧ d.wins = 0 ∧ d.draws = 0) := by
  refine ⟨?_, ?_, ?_⟩ <;>
    (unfold should_retry_move
     split_ifs with h1 h2 <;> simp_all <;> omega)

/-- A record with 3 losses: retry-ineligible per C9. -/
def threeLossRecord : MoveData := { freshMoveData "x" with losses := 3 }

/-- Witness for C9 at two concrete records. -/
theorem should_retry_spec_witness :
    should_retry_move threeLossRecord = false ∧
    should_retry_move (freshMoveData "y") = true :=
  ⟨(should_retry_spec threeLossRecord).2.2.mpr (by decide),
   (should_retry_spec (freshMoveData "y")).2.1 (by decide)⟩

/-- C3: the simulator classifies a final position as WIN exactly when it
is checkmate delivered by the learner's color, LOSS exactly when it is
checkmate delivered by the other side (so never LOSS unless the learner
is checkmated), and DRAW in every non-checkmate case — the explicit draw
conditions and the depth-cap case alike. -/
theorem simulate_outcome_classification (cm st im fm rp turn pw : Bool) :
    (determineResult cm st im fm rp turn pw = "WIN" ↔ cm = true ∧ (!turn) = pw) ∧
    (determineResult cm st im fm rp turn pw = "LOSS" ↔ cm = true ∧ (!turn) ≠ pw) ∧
    ((st || im || fm || rp) = true ∧ cm = false →
      determineResult cm st im fm rp turn pw = "DRAW") ∧
    (cm = false → determineResult cm st im fm rp turn pw = "DRAW") := by
  cases cm <;> cases st <;> cases im <;> cases fm <;> cases rp <;>
    cases turn <;> cases pw <;> decide

/-- Witness for C3: checkmate with Black to move while the learner plays
White is classified WIN. -/
theorem simulate_outcome_classification_witness :
    determineResult true false false false false false true = "WIN" :=
  (simulate_outcome_classification true false false false false false true).1.mpr
    (by decide)

/-- A legal move that both gives check and captures a pawn. -/
def checkingCapture : MoveClass Unit :=
  { move := ()
    resultIsCheckmate := false
    resultIsCheck := true
    isCapture := true
    capturedPiece := some PieceType.pawn }

/-- C5 counterexample: a checking capture contributes *two* entries to
the attack-sequence list (the source's check branch has no `continue`),
refuting "each legal move contributes at most one entry". -/
theorem attack_entry_multiplicity_counterexample :
    (attackEntriesFor checkingCapture).length = 2 ∧
    ¬ (attackEntriesFor checkingCapture).length ≤ 1 := by decide

/-- C5 (amended): a checkmate move contributes exactly one entry
(`continue` short-circuits); any other move contributes one entry per
matching category among check and positive-gain capture — two for a
checking capture — and a move matching no category contributes none. -/
theorem attack_entry_multiplicity (μ : Type) (m : MoveClass μ) :
    (attackEntriesFor m).length =
      (if m.resultIsCheckmate then 1
       else (if m.resultIsCheck then 1 else 0) +
         (if m.isCapture ∧ 0 < get_captured_piece_value m.isCapture m.capturedPiece
          then 1 else 0)) := by
  simp only [attackEntriesFor]
  split_ifs <;> simp

/-- A legal move, from a position where the learner is in check, that
escapes the check by capturing the checking queen while giving check to
the opponent (e.g. FEN k7/8/8/8/8/8/q7/KQ6 w - - 0 1, move Qb1xa2+):
`test_board.is_check()` is then true — for the *opponent* — although the
learner's own check is resolved. -/
def counterCheckEscape : DefMoveClass Unit :=
  { move := ()
    pieceMoved := some PieceType.queen
    testIsCheck := true
    threatsAfterCount := 0
    testIsCaptureMove := true
    capturedValue := 900
    testGameOver := false
    attackedByOpponent := false
    defendedByUs := false }

/-- C6: evaluating the defense-sequence computation at the failing input
(learner in check, legal escape move that gives counter-check): the code
marks `removes_check` false and withholds the +10000 bonus, although the
move removes the existing check on the learner's king. -/
theorem defense_removes_check_divergence :
    (defenseEntryFor true 1 counterCheckEscape).removes_check = false ∧
    defense_priority (defenseEntryFor true 1 counterCheckEscape) = 1900 ∧
    defense_priority (defenseEntryFor true 1 counterCheckEscape) < 10000 := by
  decide

/-- The speed bonus is never negative (`1000/m` with `m ≥ 0`, or 0). -/
theorem speedBonus_nonneg (o : Option Nat) : 0 ≤ speedBonus o := by
  cases o with
  | none => simp [speedBonus]
  | some m =>
      simp only [speedBonus]
      apply div_nonneg (by norm_num)
      exact_mod_cast Nat.zero_le m

/-- The speed bonus is at most 1000 (`min ≥ 1` whenever recorded). -/
theorem speedBonus_le (o : Option Nat) : speedBonus o ≤ 1000 := by
  cases o with
  | none => norm_num [speedBonus]
  | some m =>
      simp only [speedBonus]
      rcases Nat.eq_zero_or_pos m with hm | hm
      · subst hm; norm_num
      · rw [div_le_iff₀ (by exact_mod_cast hm)]
        have h1 : (1 : ℚ) ≤ (m : ℚ) := by exact_mod_cast hm
        nlinarith

/-- C1 (amended): a record with a win outscores a record without one
provided the zero-win record's tactical bonus (10·captures +
material/10) exceeds the win record's by at most 3500 — the gap between
the win tier's floor (10000) and the non-win tiers' ceiling (6500).
With unbounded accumulated captures/material the tiers can be
overturned (see the counterexample). -/
theorem score_tier_ordering (r1 r2 : MoveData)
    (h1 : 0 < r1.wins) (h2 : r2.wins = 0)
    (h3 : 0 < r2.wins + r2.draws + r2.losses)
    (hb : tacticalBonus r2 ≤ tacticalBonus r1 + 3500) :
    get_move_score r2 < get_move_score r1 := by
  have ht1 : ¬(r1.wins + r1.draws + r1.losses = 0) := by omega
  have ht2 : ¬(r2.wins + r2.draws + r2.losses = 0) := by omega
  have hw2 : ¬(0 < r2.wins) := by omega
  simp only [get_move_score, if_neg ht1, if_neg ht2, if_pos h1, if_neg hw2]
  have htot1 : (0 : ℚ) < (r1.wins : ℚ) + (r1.draws : ℚ) + (r1.losses : ℚ) := by
    have : 0 < r1.wins + r1.draws + r1.losses := by omega
    exact_mod_cast this
  have htot2 : (0 : ℚ) < (r2.wins : ℚ) + (r2.draws : ℚ) + (r2.losses : ℚ) := by
    exact_mod_cast h3
  have hwr1 : 0 < (r1.wins : ℚ) / ((r1.wins : ℚ) + (r1.draws : ℚ) + (r1.losses : ℚ)) * 500 := by
    apply mul_pos _ (by norm_num)
    apply div_pos _ htot1
    exact_mod_cast h1
  have hsb1 := speedBonus_nonneg r1.min_moves_to_win
  by_cases hd : 0 < r2.draws
  · rw [if_pos hd]
    have hsb2 := speedBonus_le r2.min_moves_to_draw
    have hdr : (r2.draws : ℚ) / ((r2.wins : ℚ) + (r2.draws : ℚ) + (r2.losses : ℚ)) * 500 ≤ 500 := by
      have hle : (r2.draws : ℚ) / ((r2.wins : ℚ) + (r2.draws : ℚ) + (r2.losses : ℚ)) ≤ 1 := by
        rw [div_le_one htot2]
        have : r2.draws ≤ r2.wins + r2.draws + r2.losses := by omega
        exact_mod_cast this
      nlinarith
    linarith
  · rw [if_neg hd]
    have hloss : 100 / (1 + (r2.losses : ℚ) /
        ((r2.wins : ℚ) + (r2.draws : ℚ) + (r2.losses : ℚ)) * 10) ≤ 100 := by
      apply div_le_self (by norm_num)
      have : 0 ≤ (r2.losses : ℚ) / ((r2.wins : ℚ) + (r2.draws : ℚ) + (r2.losses : ℚ)) := by
        apply div_nonneg _ (le_of_lt htot2)
        exact_mod_cast Nat.zero_le r2.losses
      nlinarith
    linarith

/-- A one-shot winning record with no tactical bonus. -/
def winRecord : MoveData :=
  { san := "w", results := [], wins := 1, draws := 0, losses := 0
    min_moves_to_win := some 1, min_moves_to_draw := none
    total_captures := 0, total_material_gained := 0 }

/-- A zero-win drawing record with 2000 accumulated captures. -/
def fatDrawRecord : MoveData :=
  { san := "d", results := [], wins := 0, draws := 1, losses := 0
    min_moves_to_win := none, min_moves_to_draw := some 1
    total_captures := 2000, total_material_gained := 0 }

/-- C1 counterexample: the capture bonus is unbounded, so a zero-win
record (score 6500 + 20000) outscores a winning record (score 11500) —
the tactical bonuses are not merely a tiebreak. -/
theorem score_tier_counterexample :
    0 < winRecord.wins ∧ fatDrawRecord.wins = 0 ∧
    ¬ get_move_score winRecord > get_move_score fatDrawRecord := by
  refine ⟨by decide, by decide, ?_⟩
  norm_num [get_move_score, speedBonus, tacticalBonus, winRecord, fatDrawRecord]

/-- A zero-win drawing record with no tactical bonus. -/
def plainDrawRecord : MoveData :=
  { san := "d", results := [], wins := 0, draws := 1, losses := 0
    min_moves_to_win := none, min_moves_to_draw := some 1
    total_captures := 0, total_material_gained := 0 }

/-- Witness for C1 (amended) at concrete records. -/
theorem score_tier_ordering_witness :
    0 < winRecord.wins ∧ plainDrawRecord.wins = 0 ∧
    0 < plainDrawRecord.wins + plainDrawRecord.draws + plainDrawRecord.losses ∧
    tacticalBonus plainDrawRecord ≤ tacticalBonus winRecord + 3500 ∧
    get_move_score plainDrawRecord < get_move_score winRecord :=
  ⟨by decide, by decide, by decide,
   by norm_num [tacticalBonus, plainDrawRecord, winRecord],
   score_tier_ordering winRecord plainDrawRecord (by decide) (by decide) (by decide)
     (by norm_num [tacticalBonus, plainDrawRecord, winRecord])⟩

/-! ### Stable-sort lemmas -/

theorem mem_insertDesc {α β : Type} [LinearOrder β] (pri : α → β) (x z : α)
    (l : List α) : z ∈ insertDesc pri x l ↔ z = x ∨ z ∈ l := by
  induction l with
  | nil => simp [insertDesc]
  | cons y ys ih =>
      simp only [insertDesc]
      split_ifs with h
      · simp only [List.mem_cons, ih]
        try tauto
      · simp only [List.mem_cons]
        try tauto

theorem insertDesc_pairwise {α β : Type} [LinearOrder β] (pri : α → β) (x : α)
    (l : List α) (h : l.Pairwise (fun a b => pri b ≤ pri a)) :
    (insertDesc pri x l).Pairwise (fun a b => pri b ≤ pri a) := by
  induction l with
  | nil => simp [insertDesc]
  | cons y ys ih =>
      simp only [insertDesc]
      rcases List.pairwise_cons.mp h with ⟨hy, hys⟩
      split_ifs with hlt
      · refine List.pairwise_cons.mpr ⟨?_, ih hys⟩
        intro z hz
        rcases (mem_insertDesc pri x z ys).mp hz with rfl | hzy
        · exact le_of_lt hlt
        · exact hy z hzy
      · refine List.pairwise_cons.mpr ⟨?_, h⟩
        intro z hz
        rcases List.mem_cons.mp hz with rfl | hzy
        · exact le_of_not_lt hlt
        · exact le_trans (hy z hzy) (le_of_not_lt hlt)

theorem sortDesc_pairwise {α β : Type} [LinearOrder β] (pri : α → β) (l : List α) :
    (sortDesc pri l).Pairwise (fun a b => pri b ≤ pri a) := by
  induction l with
  | nil => simp [sortDesc]
  | cons x xs ih => exact insertDesc_pairwise pri x _ ih

theorem mem_sortDesc {α β : Type} [LinearOrder β] (pri : α → β) (z : α)
    (l : List α) : z ∈ sortDesc pri l ↔ z ∈ l := by
  induction l with
  | nil => simp [sortDesc]
  | cons x xs ih => simp [sortDesc, mem_insertDesc, ih]

theorem filter_insertDesc {α β : Type} [LinearOrder β] (pri : α → β) (q : β)
    (x : α) (l : List α) :
    (insertDesc pri x l).filter (fun a => decide (pri a = q)) =
      if pri x = q then x :: l.filter (fun a => decide (pri a = q))
      else l.filter (fun a => decide (pri a = q)) := by
  induction l with
  | nil =>
      by_cases hx : pri x = q <;> simp [insertDesc, List.filter_cons, hx]
  | cons y ys ih =>
      simp only [insertDesc]
      by_cases hlt : pri x < pri y
      · rw [if_pos hlt]
        by_cases hy : pri y = q
        · have hxq : pri x ≠ q := fun hxe => absurd hlt (by rw [hxe, hy]; exact lt_irrefl q)
          simp [List.filter_cons, hy, hxq, ih]
        · simp [List.filter_cons, hy, ih]
      · rw [if_neg hlt]
        by_cases hx : pri x = q <;> simp [List.filter_cons, hx]

theorem filter_sortDesc {α β : Type} [LinearOrder β] (pri : α → β) (q : β)
    (l : List α) :
    (sortDesc pri l).filter (fun a => decide (pri a = q)) =
      l.filter (fun a => decide (pri a = q)) := by
  induction l with
  | nil => simp [sortDesc]
  | cons x xs ih =>
      simp only [sortDesc, filter_insertDesc, ih, List.filter_cons]
      split_ifs with h <;> simp_all

/-! ### Attack-ranking tier facts -/

/-- `get_captured_piece_value` is bounded by the standard piece values:
between 0 and 900. -/
theorem gcv_bounds (c : Bool) (p : Option PieceType) :
    0 ≤ get_captured_piece_value c p ∧ get_captured_piece_value c p ≤ 900 := by
  cases c <;> cases p with
  | some pt => cases pt <;> decide
  | none => decide

/-- Every entry the attack builder produces is tagged checkmate, check
or capture, with material gain between 0 and 900. -/
theorem attackEntries_facts {μ : Type} (ms : List (MoveClass μ)) (e : AttackSeq μ)
    (he : e ∈ attackEntries ms) :
    (e.result = "checkmate" ∨ e.result = "check" ∨ e.result = "capture") ∧
    0 ≤ e.material_gain ∧ e.material_gain ≤ 900 := by
  induction ms with
  | nil => simp [attackEntries] at he
  | cons m ms ih =>
      simp only [attackEntries, List.mem_append] at he
      rcases he with he | he
      · have hb := gcv_bounds m.isCapture m.capturedPiece
        simp only [attackEntriesFor] at he
        split_ifs at he <;>
          simp only [List.mem_append, List.mem_singleton, List.not_mem_nil,
            or_false, false_or] at he <;>
          (rcases he with rfl | rfl <;> simp_all)
      · exact ih he

/-- Priority of an entry as a function of its tag, under the material
bound: checkmate = 10000, check within [5000, 5900], capture ≤ 900. -/
theorem sequence_priority_of_result {μ : Type} (e : AttackSeq μ)
    (hg : 0 ≤ e.material_gain ∧ e.material_gain ≤ 900) :
    (e.result = "checkmate" → sequence_priority e = 10000) ∧
    (e.result = "check" → 5000 ≤ sequence_priority e ∧ sequence_priority e ≤ 5900) ∧
    (e.result = "capture" → sequence_priority e ≤ 900) := by
  unfold sequence_priority
  refine ⟨fun hr => ?_, fun hr => ?_, fun hr => ?_⟩ <;> rw [hr]
  · rw [if_pos rfl]
  · rw [if_neg (by decide), if_pos rfl]
    omega
  · rw [if_neg (by decide), if_neg (by decide)]
    omega

/-- C4: the ranked attack list is sorted descending by
`sequence_priority`, is stable (per priority value, entries keep their
move-generation order), and in particular never places a non-mate check
entry above a checkmate entry nor a plain capture entry above any check
entry — the gains being bounded by the piece values. -/
theorem attack_ranking_tiers {μ : Type} (ms : List (MoveClass μ)) :
    ((calculate_attack_sequences ms).Pairwise
      (fun a b => sequence_priority b ≤ sequence_priority a)) ∧
    (∀ q : Int, (calculate_attack_sequences ms).filter
        (fun e => decide (sequence_priority e = q)) =
      (attackEntries ms).filter (fun e => decide (sequence_priority e = q))) ∧
    (∀ i j : Nat, i < j → j < (calculate_attack_sequences ms).length →
      ¬(((calculate_attack_sequences ms).getD i dummySeq).result = "check" ∧
        ((calculate_attack_sequences ms).getD j dummySeq).result = "checkmate") ∧
      ¬(((calculate_attack_sequences ms).getD i dummySeq).result = "capture" ∧
        ((calculate_attack_sequences ms).getD j dummySeq).result = "check")) := by
  refine ⟨sortDesc_pairwise _ _, fun q => filter_sortDesc _ q _, ?_⟩
  intro i j hij hj
  have hi : i < (calculate_attack_sequences ms).length := lt_trans hij hj
  have hrel := List.pairwise_iff_get.mp
    (sortDesc_pairwise sequence_priority (attackEntries ms)) ⟨i, hi⟩ ⟨j, hj⟩ hij
  have hrel2 : sequence_priority ((calculate_attack_sequences ms).get ⟨j, hj⟩) ≤
      sequence_priority ((calculate_attack_sequences ms).get ⟨i, hi⟩) := hrel
  have hgi : (calculate_attack_sequences ms).getD i dummySeq =
      (calculate_attack_sequences ms).get ⟨i, hi⟩ := by
    rw [List.getD_eq_getElem _ _ hi, List.get_eq_getElem]
  have hgj : (calculate_attack_sequences ms).getD j dummySeq =
      (calculate_attack_sequences ms).get ⟨j, hj⟩ := by
    rw [List.getD_eq_getElem _ _ hj, List.get_eq_getElem]
  have hmi : (calculate_attack_sequences ms).get ⟨i, hi⟩ ∈ attackEntries ms :=
    (mem_sortDesc sequence_priority _ _).mp
      (List.get_mem (calculate_attack_sequences ms) i hi)
  have hmj : (calculate_attack_sequences ms).get ⟨j, hj⟩ ∈ attackEntries ms :=
    (mem_sortDesc sequence_priority _ _).mp
      (List.get_mem (calculate_attack_sequences ms) j hj)
  have hfi := attackEntries_facts ms _ hmi
  have hfj := attackEntries_facts ms _ hmj
  have hpi := sequence_priority_of_result _ hfi.2
  have hpj := sequence_priority_of_result _ hfj.2
  rw [hgi, hgj]
  constructor
  · rintro ⟨hci, hcj⟩
    have h1 := (hpi.2.1 hci).2
    have h2 := hpj.1 hcj
    rw [h2] at hrel2
    omega
  · rintro ⟨hci, hcj⟩
    have h1 := hpi.2.2 hci
    have h2 := (hpj.2.1 hcj).1
    omega

/-- Two classified moves: a pawn capture and a mating move. -/
def attackWitnessMoves : List (MoveClass Unit) :=
  [{ move := (), resultIsCheckmate := false, resultIsCheck := false
     isCapture := true, capturedPiece := some PieceType.pawn },
   { move := (), resultIsCheckmate := true, resultIsCheck := false
     isCapture := false, capturedPiece := none }]

/-- Witness for C4 on a concrete move list (mate sorts above capture). -/
theorem attack_ranking_tiers_witness :
    ¬(((calculate_attack_sequences attackWitnessMoves).getD 0 dummySeq).result = "check" ∧
      ((calculate_attack_sequences attackWitnessMoves).getD 1 dummySeq).result = "checkmate") ∧
    ¬(((calculate_attack_sequences attackWitnessMoves).getD 0 dummySeq).result = "capture" ∧
      ((calculate_attack_sequences attackWitnessMoves).getD 1 dummySeq).result = "check") :=
  (attack_ranking_tiers attackWitnessMoves).2.2 0 1 (by decide) (by decide)

/-! ### Best-move fold lemmas -/

theorem foldBest_snd_le (l : Bucket) :
    ∀ acc : Option (String × String × MoveData) × ℚ, acc.2 ≤ (l.foldl bestStep acc).2 := by
  induction l with
  | nil => intro acc; exact le_rfl
  | cons p ps ih =>
      intro acc
      simp only [List.foldl_cons]
      refine le_trans ?_ (ih (bestStep acc p))
      simp only [bestStep]
      split_ifs with h
      · exact le_of_lt h
      · exact le_rfl

theorem foldBest_mem_le (l : Bucket) :
    ∀ (acc : Option (String × String × MoveData) × ℚ) (p : String × MoveData),
      p ∈ l → get_move_score p.2 ≤ (l.foldl bestStep acc).2 := by
  induction l with
  | nil => intro acc p hp; simp at hp
  | cons q qs ih =>
      intro acc p hp
      simp only [List.foldl_cons]
      rcases List.mem_cons.mp hp with rfl | hp2
      · refine le_trans ?_ (foldBest_snd_le qs (bestStep acc p))
        simp only [bestStep]
        split_ifs with h
        · exact le_rfl
        · exact le_of_not_lt h
      · exact ih (bestStep acc q) p hp2

theorem foldBest_shape (l : Bucket) :
    ∀ acc : Option (String × String × MoveData) × ℚ,
      l.foldl bestStep acc = acc ∨
      ∃ p ∈ l, (l.foldl bestStep acc).1 = some (p.1, p.2.san, p.2) ∧
        (l.foldl bestStep acc).2 = get_move_score p.2 := by
  induction l with
  | nil => intro acc; left; rfl
  | cons q qs ih =>
      intro acc
      simp only [List.foldl_cons]
      rcases ih (bestStep acc q) with heq | ⟨p, hp, h1, h2⟩
      · rw [heq]
        simp only [bestStep]
        split_ifs with h
        · right
          exact ⟨q, List.mem_cons_self q qs, rfl, rfl⟩
        · left; rfl
      · right
        exact ⟨p, List.mem_cons_of_mem q hp, h1, h2⟩

theorem foldBest_no_update (l : Bucket) :
    ∀ acc : Option (String × String × MoveData) × ℚ,
      (∀ p ∈ l, get_move_score p.2 ≤ acc.2) → l.foldl bestStep acc = acc := by
  induction l with
  | nil => intro acc _; rfl
  | cons q qs ih =>
      intro acc hall
      simp only [List.foldl_cons]
      have hq : bestStep acc q = acc := by
        simp only [bestStep]
        rw [if_neg (not_lt.mpr (hall q (List.mem_cons_self q qs)))]
      rw [hq]
      exact ih acc (fun p hp => hall p (List.mem_cons_of_mem q hp))

/-- C8 (amended): the memory lookup returns absent iff every entry
recorded for the key (none, when the key is absent or empty) scores at
most the -1 sentinel — in particular whenever the key has no entries,
but also when all entries score ≤ -1, which negative accumulated
material makes reachable; when it returns a move, that move is recorded
for the key and attains the maximum score among all recorded moves. -/
theorem best_move_spec (mem : Memory) (key : String) :
    (get_best_move_from_memory mem key = none ↔
      ∀ p ∈ (alist_get mem key).getD ([] : Bucket), get_move_score p.2 ≤ -1) ∧
    (∀ u s d, get_best_move_from_memory mem key = some (u, s, d) →
      ((u, d) ∈ (alist_get mem key).getD ([] : Bucket) ∧ s = d.san) ∧
      ∀ p ∈ (alist_get mem key).getD ([] : Bucket),
        get_move_score p.2 ≤ get_move_score d) := by
  cases hm : alist_get mem key with
  | none =>
      have hres : get_best_move_from_memory mem key = none := by
        unfold get_best_move_from_memory
        rw [hm]
      rw [hres]
      simp
  | some bucket =>
      cases bucket with
      | nil =>
          have hres : get_best_move_from_memory mem key = none := by
            unfold get_best_move_from_memory
            rw [hm]
          rw [hres]
          simp
      | cons b bs =>
          have hres : get_best_move_from_memory mem key =
              (List.foldl bestStep (none, -1) (b :: bs)).1 := by
            unfold get_best_move_from_memory
            rw [hm]
          rw [hres]
          simp only [Option.getD_some]
          constructor
          · constructor
            · intro hnone p hp
              rcases foldBest_shape (b :: bs) (none, -1) with heq | ⟨p0, _, h1, _⟩
              · have hle := foldBest_mem_le (b :: bs) (none, -1) p (by simpa using hp)
                rw [heq] at hle
                exact hle
              · rw [hnone] at h1
                exact absurd h1.symm (by simp)
            · intro hall
              have hno := foldBest_no_update (b :: bs) (none, -1)
                (fun p hp => by simpa using hall p (by simpa using hp))
              rw [hno]
          · intro u s d hsome
            rcases foldBest_shape (b :: bs) (none, -1) with heq | ⟨p0, hp0, h1, h2⟩
            · rw [heq] at hsome
              exact absurd hsome (by simp)
            · rw [h1] at hsome
              have h3 := Option.some_inj.mp hsome
              rw [Prod.ext_iff] at h3
              obtain ⟨h4, h5⟩ := h3
              rw [Prod.ext_iff] at h5
              obtain ⟨h6, h7⟩ := h5
              simp only at h4 h6 h7
              refine ⟨⟨?_, ?_⟩, ?_⟩
              · rw [← h4, ← h7]
                simpa [Prod.mk.eta] using hp0
              · rw [← h7, ← h6]
              · intro p hp
                have hle := foldBest_mem_le (b :: bs) (none, -1) p (by simpa using hp)
                rw [h2] at hle
                rw [← h7]
                exact hle

/-- A pure-loss record whose accumulated material is -3000, scoring
100/11 - 300 < -1. -/
def sunkRecord : MoveData :=
  { san := "b3"
    results := [{ result := "LOSS", move_count := 4, timestamp := "t", tactical_info := none }]
    wins := 0, draws := 0, losses := 1
    min_moves_to_win := none, min_moves_to_draw := none
    total_captures := 0, total_material_gained := -3000 }

/-- A store whose only bucket holds only `sunkRecord`. -/
def memSunk : Memory := [("K", [("b2b3", sunkRecord)])]

/-- C8 counterexample: the key has a recorded entry, yet the lookup
returns absent — the `-1` sentinel of the running best score is above
the entry's score, so the strict-improvement loop never selects it. -/
theorem best_move_counterexample :
    (alist_get memSunk "K").getD ([] : Bucket) ≠ [] ∧
    get_best_move_from_memory memSunk "K" = none := by
  constructor
  · decide
  · have hscore : get_move_score sunkRecord ≤ -1 := by
      norm_num [get_move_score, sunkRecord, speedBonus, tacticalBonus]
    unfold get_best_move_from_memory
    rw [show alist_get memSunk "K" = some [("b2b3", sunkRecord)] from rfl]
    simp [List.foldl_cons, List.foldl_nil, bestStep, not_lt.mpr hscore]

/-- A one-win record with a normal positive score. -/
def goodRecordC8 : MoveData :=
  { san := "c3"
    results := [{ result := "WIN", move_count := 2, timestamp := "t", tactical_info := none }]
    wins := 1, draws := 0, losses := 0
    min_moves_to_win := some 2, min_moves_to_draw := none
    total_captures := 0, total_material_gained := 0 }

/-- A store whose only bucket holds only `goodRecordC8`. -/
def memGoodC8 : Memory := [("K2", [("c2c3", goodRecordC8)])]

/-- Witness for C8 (amended) at a concrete store. -/
theorem best_move_spec_witness :
    get_best_move_from_memory memGoodC8 "K2" = some ("c2c3", "c3", goodRecordC8) ∧
    (("c2c3", goodRecordC8) ∈ (alist_get memGoodC8 "K2").getD ([] : Bucket) ∧
      ∀ p ∈ (alist_get memGoodC8 "K2").getD ([] : Bucket),
        get_move_score p.2 ≤ get_move_score goodRecordC8) := by
  have hbest : get_best_move_from_memory memGoodC8 "K2" =
      some ("c2c3", "c3", goodRecordC8) := by
    have hscore : (-1 : ℚ) < get_move_score goodRecordC8 := by
      norm_num [get_move_score, goodRecordC8, speedBonus, tacticalBonus]
    unfold get_best_move_from_memory
    rw [show alist_get memGoodC8 "K2" = some [("c2c3", goodRecordC8)] from rfl]
    simp [List.foldl_cons, List.foldl_nil, bestStep, hscore]
    rfl
  exact ⟨hbest,
    ((best_move_spec memGoodC8 "K2").2 "c2c3" "c3" goodRecordC8 hbest).1.1,
    ((best_move_spec memGoodC8 "K2").2 "c2c3" "c3" goodRecordC8 hbest).2⟩

/-- Loop invariant of the simulation loop: the ply count never
decreases and never passes `max mc maxDepth`. -/
theorem simLoop_ply_bounds {σ μ : Type} [Inhabited μ] (R : Rules σ μ)
    (playAsWhite : Bool) (maxDepth : Nat) (preferCapture : Nat → Bool)
    (choice : Nat → Nat) (engine : Option (σ → Option μ)) :
    ∀ (k : Nat) (b : σ) (mc : Nat) (t : TacticalInfo), maxDepth - mc ≤ k →
      mc ≤ (simLoop R playAsWhite maxDepth preferCapture choice engine b mc t).2.1 ∧
      (simLoop R playAsWhite maxDepth preferCapture choice engine b mc t).2.1 ≤
        max mc maxDepth := by
  intro k
  induction k with
  | zero =>
      intro b mc t hk
      rw [simLoop, dif_neg (by rintro ⟨-, h2⟩; omega)]
      exact ⟨le_rfl, le_max_left _ _⟩
  | succ n ih =>
      intro b mc t hk
      rw [simLoop]
      by_cases hg : R.isGameOver b = false ∧ mc < maxDepth
      · rw [dif_pos hg]
        cases hs : simStep R playAsWhite preferCapture choice engine b mc t with
        | none => exact ⟨le_rfl, le_max_left _ _⟩
        | some bt =>
            cases bt with
            | mk b1 t1 =>
                have hrec := ih b1 (mc + 1) t1 (by omega)
                refine ⟨le_trans (Nat.le_succ mc) hrec.1, le_trans hrec.2 ?_⟩
                have h2 := hg.2
                omega
      · rw [dif_neg hg]
        exact ⟨le_rfl, le_max_left _ _⟩

/-- C10: a single simulated game is a total function of its inputs (the
loop always terminates) and, whenever the depth cap is at least 1, the
returned ply count n satisfies 1 ≤ n ≤ depthCap — for every rules
engine, random streams and opponent oracle, including the oracle that
fails on every query (`some (fun _ => none)`, the random-fallback
path). -/
theorem simulate_ply_bounds {σ μ : Type} [Inhabited μ] (R : Rules σ μ)
    (playAsWhite : Bool) (maxDepth : Nat) (board : σ) (firstMove : μ)
    (preferCapture : Nat → Bool) (choice : Nat → Nat)
    (engine : Option (σ → Option μ)) (h : 1 ≤ maxDepth) :
    1 ≤ (simulate_tactical_game R playAsWhite maxDepth board firstMove
        preferCapture choice engine).2.1 ∧
    (simulate_tactical_game R playAsWhite maxDepth board firstMove
        preferCapture choice engine).2.1 ≤ maxDepth := by
  have hb := simLoop_ply_bounds R playAsWhite maxDepth preferCapture choice engine
    (maxDepth - 1) (R.push board firstMove) 1 emptyTacticalInfo (by omega)
  simp only [simulate_tactical_game]
  constructor
  · exact hb.1
  · have h2 := hb.2
    omega

/-- Witness for C10: with the degenerate rules engine, an
always-failing oracle and depth cap 5, the game ends after ply 1. -/
theorem simulate_ply_bounds_witness :
    1 ≤ 5 ∧
    (1 ≤ (simulate_tactical_game trivialRules true 5 () () (fun _ => false)
        (fun _ => 0) (some (fun _ => none))).2.1 ∧
      (simulate_tactical_game trivialRules true 5 () () (fun _ => false)
        (fun _ => 0) (some (fun _ => none))).2.1 ≤ 5) :=
  ⟨by decide,
   simulate_ply_bounds trivialRules true 5 () () (fun _ => false) (fun _ => 0)
     (some (fun _ => none)) (by decide)⟩

/-- Concrete search inputs: one legal move, every simulation a draw. -/
def envC2 : SearchEnv :=
  { legalMoves := ["a2a3"]
    san := fun _ => "a3"
    pickUntried := fun _ => 0
    simResult := fun _ => ("DRAW", 5, emptyTacticalInfo)
    timestamps := fun _ => "t0" }

/-- A record with one recorded loss and nothing else — the shape a
previous run leaves behind after a single losing attempt. -/
def lossOnlyRecord : MoveData :=
  { san := "a3"
    results := [{ result := "LOSS", move_count := 4, timestamp := "t", tactical_info := none }]
    wins := 0, draws := 0, losses := 1
    min_moves_to_win := none, min_moves_to_draw := none
    total_captures := 0, total_material_gained := 0 }

/-- A store whose only entry for the position is `lossOnlyRecord`. -/
def memC2 : Memory := [("K", [("a2a3", lossOnlyRecord)])]

/-- C2: evaluating the search loop at the failing input.  The memory's
best move has zero wins and zero draws, so step 2 of
`find_winning_move` falls through every `best_draw` assignment; the
first attempt retries the recorded move, the simulation returns DRAW,
and the draw-tracking code reads the never-assigned `best_draw` — an
uncaught `UnboundLocalError`, not the graceful fallback the claim
describes. -/
theorem search_unbound_best_draw :
    find_winning_move Strategy.positional [] [] envC2 memC2 "K" 1 =
      Except.error "UnboundLocalError: best_draw" := by
  have hscore : (-1 : ℚ) < get_move_score lossOnlyRecord := by
    norm_num [get_move_score, lossOnlyRecord, speedBonus, tacticalBonus]
  have hbest : get_best_move_from_memory memC2 "K" =
      some ("a2a3", "a3", lossOnlyRecord) := by
    unfold get_best_move_from_memory
    rw [show alist_get memC2 "K" = some [("a2a3", lossOnlyRecord)] from rfl]
    simp [List.foldl_cons, List.foldl_nil, bestStep, hscore]
    rfl
  unfold find_winning_move
  rw [hbest]
  show searchLoop envC2 "K" 1 ([] : List String) none memC2 0 =
    Except.error "UnboundLocalError: best_draw"
  rw [searchLoop]
  rfl

end Humine
